import Mathlib

/-!
Shallow embedding of the walrus-sync resumable staged-upload orchestrator
(src/uploader.ts with StateManager, src/state.ts, src/cli.ts).

The remote protocol gateway (WalrusClient), the filesystem and the clock are
modelled as an environment record of call outcomes; each orchestrator
function is translated into a pure Lean function that returns the ordered
trace of external effects it performs (gateway calls, file reads, state-store
operations), the resulting state store contents, the in-memory upload record
and a success / thrown-error / out-of-fuel outcome.  The mutual recursion
between `stageUploading`'s recovery path and `executeStage` is made total
with an explicit fuel parameter; running out of fuel is reported as a
distinguished outcome, never conflated with a thrown error.

Opaque protocol payloads (encoded metadata, sliver maps, confirmations) are
modelled as `Nat` tokens the orchestrator only threads through, matching the
`any`-typed fields of the source.
-/

namespace WalrusSync

/-- The upload stages of `UploadStage` in src/state.ts. -/
inductive Stage
  | encoding
  | registered
  | uploading
  | certifying
  | completed
  | failed
deriving DecidableEq, Repr

/-- The persisted per-file record `UploadState` of src/state.ts.
Timestamps are modelled as natural numbers; opaque payloads as `Nat`
tokens and the confirmation sequence as a list of nullable tokens. -/
structure UploadState where
  blobId : String
  filePath : String
  stage : Stage
  blobObjectId : Option String
  createdAt : Nat
  updatedAt : Nat
  metadata : Option Nat
  confirmations : Option (List (Option Nat))
  rootHash : Option String
  sliversByNode : Option Nat
  error : Option String
deriving DecidableEq, Repr

/-- The state directory: one record per blobId (fingerprint-named files). -/
abbrev StateStore := List (String × UploadState)

namespace StateManager

/-- `StateManager.saveState` (src/state.ts): stamps `updatedAt`, then writes
the record to the fingerprint-named file, overwriting unconditionally.
Returns the new store contents and the (mutated) in-memory record. -/
def saveState (now : Nat) (store : StateStore) (state : UploadState) :
    StateStore × UploadState :=
  let s' := { state with updatedAt := now }
  ((s'.blobId, s') :: List.filter (fun p => p.1 != s'.blobId) store, s')

/-- `StateManager.loadState` (src/state.ts): returns the record, or `none`
when the state file does not exist (or any other read fault occurs). -/
def loadState (store : StateStore) (blobId : String) : Option UploadState :=
  List.lookup blobId store

/-- `StateManager.removeState` (src/state.ts): `fs.unlink` on the state
file.  `unlink` raises ENOENT when the file does not exist; there is no
catch around it, so the error propagates to the caller. -/
def removeState (store : StateStore) (blobId : String) :
    Except String StateStore :=
  match List.lookup blobId store with
  | some _ => .ok (List.filter (fun p => p.1 != blobId) store)
  | none => .error "ENOENT"

/-- Modelled from the spec: `listAll()` producing the set of known records
for batch-resume scans.  The implementation of the listing operation is not
among the provided sources (only its call site in src/cli.ts is). -/
def listAll (store : StateStore) : List UploadState :=
  List.map (fun p => p.2) store

/-- Modelled from the spec: `StateManager.listPendingUploads`, invoked from
the CLI `--resume` flow (src/cli.ts) but missing from the provided sources.
Per the spec it delegates to the store's `listAll`, filters to non-terminal
stages (excluding `completed` and `failed`), and returns source paths. -/
def listPendingUploads (store : StateStore) : List String :=
  List.map (fun r => r.filePath)
    (List.filter (fun r => !(r.stage == Stage.completed || r.stage == Stage.failed))
      (listAll store))

end StateManager

/-- Result of `getVerifiedBlobStatus` as inspected by `isBlobCertified`:
only the status type (permanent / deletable / anything else) and the
certification epoch field matter to the orchestrator. -/
inductive BlobStatusType
  | permanent
  | deletable
  | other
deriving DecidableEq, Repr

structure BlobStatus where
  type : BlobStatusType
  initialCertifiedEpoch : Option Nat
deriving DecidableEq, Repr

/-- The value bundle returned by `walrusClient.encodeBlob`. -/
structure EncodedBlob where
  blobId : String
  metadata : Nat
  sliversByNode : Nat
  rootHash : Nat
deriving DecidableEq, Repr

/-- The environment: outcomes of the filesystem, clock and remote-protocol
gateway calls the uploader makes.  Each field gives the (fixed) response the
corresponding call produces; `.error` models a thrown exception, carrying
the error message. -/
structure Gateway where
  readFileResult : Except String (List Nat)
  computeMetadataBlobId : Except String String
  encodeBlob : Except String EncodedBlob
  registerObjectId : Except String String
  writeToNodes : Except String (List (Option Nat))
  verifiedBlobStatus : Except String BlobStatus
  readBlobOk : Bool
  certifyResult : Except String Unit
  deleteBlobResult : Except String Unit
  now : Nat
deriving Repr

/-- The `UploadOptions` object of src/uploader.ts.  `epochs` is optional to
model the absent / falsy cases the `!options.epochs` guard rejects;
`deletable` is `boolean | undefined` in the source. -/
structure UploadOptions where
  epochs : Option Nat
  deletable : Option Bool
deriving DecidableEq, Repr

/-- Gateway calls the uploader can issue, with the arguments the claims
inspect. -/
inductive GwCall
  | computeMetadata
  | encode
  | register (size : Nat) (epochs : Option Nat) (blobId : String) (deletable : Bool)
  | write (blobId : String) (objectId : String) (deletable : Bool)
  | certifyTx (blobId : String) (objectId : String) (deletable : Bool)
  | deleteObject (objectId : String)
  | statusCheck (blobId : String)
  | readBlob (blobId : String)
deriving DecidableEq, Repr

/-- State-store operations. -/
inductive StoreOp
  | load (blobId : String)
  | save (s : UploadState)
  | remove (blobId : String)
deriving DecidableEq, Repr

/-- One external effect of a run, in program order. -/
inductive Event
  | fileRead (path : String)
  | gw (c : GwCall)
  | store (op : StoreOp)
deriving DecidableEq, Repr

/-- Whether a gateway call mutates remote state (encode / register /
write-to-nodes / certify / delete-object), as opposed to the read-only
status and existence probes. -/
def GwCall.isMutation : GwCall → Bool
  | .encode => true
  | .register _ _ _ _ => true
  | .write _ _ _ => true
  | .certifyTx _ _ _ => true
  | .deleteObject _ => true
  | _ => false

def Event.isMutation : Event → Bool
  | .gw c => c.isMutation
  | _ => false

/-- Outcome of a run: normal return, a thrown error (with its message), or
the modelling horizon of the fuel parameter. -/
inductive ExecResult
  | ok
  | err (msg : String)
  | fuelOut
deriving DecidableEq, Repr

/-- Result of one stage function: the effect trace, the store contents, the
in-memory record, and the outcome. -/
structure StepResult where
  events : List Event
  store : StateStore
  state : UploadState
  result : ExecResult
deriving DecidableEq, Repr

/-- Result of the `uploadFile` entry point (its in-memory record is not
observable by the caller). -/
structure RunResult where
  events : List Event
  store : StateStore
  result : ExecResult
deriving DecidableEq, Repr

namespace WalrusUploader

/-- `WalrusUploader.isBlobCertified` (src/uploader.ts): query the verified
blob status; on `permanent` / `deletable` report whether the certification
epoch is set, otherwise not certified.  If the status lookup itself throws,
fall back to a raw `readBlob` existence probe and report its success.
Returns the effect trace and the boolean; every path returns normally. -/
def isBlobCertified (gw : Gateway) (blobId : String) : List Event × Bool :=
  match gw.verifiedBlobStatus with
  | .ok status =>
    ([.gw (.statusCheck blobId)],
      match status.type with
      | .permanent => status.initialCertifiedEpoch.isSome
      | .deletable => status.initialCertifiedEpoch.isSome
      | .other => false)
  | .error _ =>
    ([.gw (.statusCheck blobId), .gw (.readBlob blobId)], gw.readBlobOk)

/-- `WalrusUploader.stageCertifying` (src/uploader.ts).  Precondition check
(confirmations and blob object id present) throws outside the try block;
inside it, the idempotent short-circuit on `isBlobCertified`, then the
certify transaction, `stage: completed` save and record removal.  The catch
persists `stage: failed` (without touching `error`) and swallows. -/
def stageCertifying (gw : Gateway) (store : StateStore) (state : UploadState)
    (options : UploadOptions) : StepResult :=
  match state.confirmations, state.blobObjectId with
  | some _, some objId =>
    let certEvents := (isBlobCertified gw state.blobId).1
    if (isBlobCertified gw state.blobId).2 then
      match StateManager.removeState store state.blobId with
      | .ok store' =>
        ⟨certEvents ++ [.store (.remove state.blobId)], store', state, .ok⟩
      | .error _ =>
        -- removal failure lands in the catch: persist failed, swallow
        let sv := StateManager.saveState gw.now store { state with stage := .failed }
        ⟨certEvents ++ [.store (.remove state.blobId), .store (.save sv.2)],
          sv.1, sv.2, .ok⟩
    else
      match gw.certifyResult with
      | .ok _ =>
        let sv := StateManager.saveState gw.now store { state with stage := .completed }
        match StateManager.removeState sv.1 state.blobId with
        | .ok store2 =>
          ⟨certEvents ++ [.gw (.certifyTx state.blobId objId (options.deletable.getD false)),
              .store (.save sv.2), .store (.remove state.blobId)],
            store2, sv.2, .ok⟩
        | .error _ =>
          let sv2 := StateManager.saveState gw.now sv.1 { sv.2 with stage := .failed }
          ⟨certEvents ++ [.gw (.certifyTx state.blobId objId (options.deletable.getD false)),
              .store (.save sv.2), .store (.remove state.blobId), .store (.save sv2.2)],
            sv2.1, sv2.2, .ok⟩
      | .error _ =>
        let sv := StateManager.saveState gw.now store { state with stage := .failed }
        ⟨certEvents ++ [.gw (.certifyTx state.blobId objId (options.deletable.getD false)),
            .store (.save sv.2)],
          sv.1, sv.2, .ok⟩
  | _, _ => ⟨[], store, state, .err "Missing required state for certification stage"⟩

/-- Modelled from the spec: `uint8ArrayToBase64` (imported from src/utils,
whose implementation is not among the provided sources) — a text-safe
encoding of the root-hash bytes, here an injective rendering of the opaque
token. -/
def uint8ArrayToBase64 (bytes : Nat) : String :=
  toString bytes

/-- The catch block of `WalrusUploader.executeStage` (src/uploader.ts): on a
thrown error, set `stage: failed`, stamp the error message into `error`,
refresh `updatedAt`, persist, and rethrow; otherwise pass the result
through. -/
def failCatch (gw : Gateway) (inner : StepResult) : StepResult :=
  match inner.result with
  | .err msg =>
    let sv := StateManager.saveState gw.now inner.store
      { inner.state with stage := .failed, error := some msg, updatedAt := gw.now }
    ⟨inner.events ++ [.store (.save sv.2)], sv.1, sv.2, .err msg⟩
  | _ => inner

mutual

/-- `WalrusUploader.executeStage` (src/uploader.ts): dispatch on the
record's stage — `encoding` and `failed` run stage 1, `registered` runs
stage 2, `uploading` and `certifying` both run stage 3, `completed` is a
logged no-op — wrapped in the `failCatch` error handler. -/
def executeStage : Nat → Gateway → StateStore → UploadState → List Nat →
    UploadOptions → StepResult
  | 0, _, store, state, _, _ => ⟨[], store, state, .fuelOut⟩
  | fuel + 1, gw, store, state, fileContent, options =>
    failCatch gw
      (match state.stage with
      | .encoding => stageEncoding fuel gw store state fileContent options
      | .registered => stageUploading fuel gw store state fileContent options
      | .uploading => stageCertifying gw store state options
      | .certifying => stageCertifying gw store state options
      | .completed => ⟨[], store, state, .ok⟩
      | .failed => stageEncoding fuel gw store state fileContent options)

/-- `WalrusUploader.stageEncoding` (src/uploader.ts): encode the bytes,
register the blob on the ledger, persist
`{metadata, blobObjectId, rootHash, sliversByNode, stage: registered}`,
then continue into stage 2.  Exceptions propagate to `executeStage`. -/
def stageEncoding : Nat → Gateway → StateStore → UploadState → List Nat →
    UploadOptions → StepResult
  | 0, _, store, state, _, _ => ⟨[], store, state, .fuelOut⟩
  | fuel + 1, gw, store, state, fileContent, options =>
    match gw.encodeBlob with
    | .error e => ⟨[.gw .encode], store, state, .err e⟩
    | .ok encoded =>
      let regCall : Event := .gw (.register fileContent.length options.epochs
        encoded.blobId (options.deletable.getD false))
      match gw.registerObjectId with
      | .error e => ⟨[.gw .encode, regCall], store, state, .err e⟩
      | .ok objId =>
        let sv := StateManager.saveState gw.now store
          { state with
              metadata := some encoded.metadata,
              blobObjectId := some objId,
              rootHash := some (uint8ArrayToBase64 encoded.rootHash),
              sliversByNode := some encoded.sliversByNode,
              stage := .registered }
        let next := stageUploading fuel gw sv.1 sv.2 fileContent options
        ⟨[.gw .encode, regCall, .store (.save sv.2)] ++ next.events,
          next.store, next.state, next.result⟩

/-- `WalrusUploader.stageUploading` (src/uploader.ts): precondition check
(metadata, sliver map and object id present) throws outside the try block.
Inside it, write the encoded blob to the nodes; zero non-null confirmations
is escalated to a thrown error; otherwise persist
`{confirmations, stage: uploading}` and continue into certification.  Any
exception in the try block enters the stage-2 recovery path. -/
def stageUploading : Nat → Gateway → StateStore → UploadState → List Nat →
    UploadOptions → StepResult
  | 0, _, store, state, _, _ => ⟨[], store, state, .fuelOut⟩
  | fuel + 1, gw, store, state, fileContent, options =>
    match state.metadata, state.sliversByNode, state.blobObjectId with
    | some _, some _, some objId =>
      let writeCall : Event := .gw (.write state.blobId objId (options.deletable.getD false))
      match gw.writeToNodes with
      | .ok confirmations =>
        if (List.filter (fun c => c != none) confirmations).length = 0 then
          -- "No valid confirmations received from storage nodes" → recovery
          let rec' := stage2Recovery fuel gw store state fileContent options
          ⟨writeCall :: rec'.events, rec'.store, rec'.state, rec'.result⟩
        else
          let sv := StateManager.saveState gw.now store
            { state with confirmations := some confirmations, stage := .uploading }
          let next := stageCertifying gw sv.1 sv.2 options
          match next.result with
          | .err _ =>
            -- an exception from stageCertifying lands in this stage's catch
            let rec' := stage2Recovery fuel gw next.store next.state fileContent options
            ⟨writeCall :: .store (.save sv.2) :: (next.events ++ rec'.events),
              rec'.store, rec'.state, rec'.result⟩
          | _ =>
            ⟨writeCall :: .store (.save sv.2) :: next.events,
              next.store, next.state, next.result⟩
      | .error _ =>
        let rec' := stage2Recovery fuel gw store state fileContent options
        ⟨writeCall :: rec'.events, rec'.store, rec'.state, rec'.result⟩
    | _, _, _ => ⟨[], store, state, .err "Missing required state for uploading stage"⟩

/-- The catch block of `stageUploading` (src/uploader.ts): best-effort
deletion of the registered ledger object (its own failure is only warned
about), reset of the record to `stage: encoding` with `blobObjectId`,
`metadata`, `sliversByNode`, `confirmations` and `error` cleared, persist,
then restart execution from `executeStage` with the same file bytes. -/
def stage2Recovery : Nat → Gateway → StateStore → UploadState → List Nat →
    UploadOptions → StepResult
  | 0, _, store, state, _, _ => ⟨[], store, state, .fuelOut⟩
  | fuel + 1, gw, store, state, fileContent, options =>
    let cleanupEvents : List Event :=
      match state.blobObjectId with
      | some objId => [.gw (.deleteObject objId)]
      | none => []
    let sv := StateManager.saveState gw.now store
      { state with
          stage := .encoding,
          blobObjectId := none,
          metadata := none,
          sliversByNode := none,
          confirmations := none,
          error := none }
    let next := executeStage fuel gw sv.1 sv.2 fileContent options
    ⟨cleanupEvents ++ [.store (.save sv.2)] ++ next.events,
      next.store, next.state, next.result⟩

end

/-- The tail of `WalrusUploader.uploadFile` (src/uploader.ts) shared by the
fresh-record, resume and completed-but-not-certified paths: fix the
`deletable` default into the options object, run `executeStage`, and swallow
any thrown error at the per-file boundary. -/
def finishUpload (fuel : Nat) (gw : Gateway) (store : StateStore)
    (state : UploadState) (fileContent : List Nat) (options : UploadOptions)
    (eventsSoFar : List Event) : RunResult :=
  let options' := { options with deletable := some (options.deletable.getD false) }
  let r := executeStage fuel gw store state fileContent options'
  match r.result with
  | .err _ => ⟨eventsSoFar ++ r.events, r.store, .ok⟩
  | .fuelOut => ⟨eventsSoFar ++ r.events, r.store, .fuelOut⟩
  | .ok => ⟨eventsSoFar ++ r.events, r.store, .ok⟩

/-- `WalrusUploader.uploadFile` (src/uploader.ts): the per-file entry
point.  The `!options.epochs` guard throws before the try block (before any
file read, store operation or gateway call).  Inside the try block: read the
file, compute the blob id, load the tracked state; with no record, consult
`isBlobCertified` and skip when certified, else initialise a fresh record at
`encoding`; with a `completed` record, re-check certification and either
remove the record and skip, or reset to `encoding`; otherwise resume at the
persisted stage.  All errors thrown inside the try block are logged and
swallowed. -/
def uploadFile (fuel : Nat) (gw : Gateway) (store : StateStore)
    (filePath : String) (options : UploadOptions) : RunResult :=
  match options.epochs with
  | none => ⟨[], store, .err "Should specify the number for `epochs`"⟩
  | some 0 => ⟨[], store, .err "Should specify the number for `epochs`"⟩
  | some (_ + 1) =>
    match gw.readFileResult with
    | .error _ => ⟨[.fileRead filePath], store, .ok⟩
    | .ok fileContent =>
      match gw.computeMetadataBlobId with
      | .error _ => ⟨[.fileRead filePath, .gw .computeMetadata], store, .ok⟩
      | .ok blobId =>
        let loadEvents : List Event :=
          [.fileRead filePath, .gw .computeMetadata, .store (.load blobId)]
        match StateManager.loadState store blobId with
        | none =>
          let cert := isBlobCertified gw blobId
          if cert.2 then
            ⟨loadEvents ++ cert.1, store, .ok⟩
          else
            let state : UploadState :=
              { blobId := blobId, filePath := filePath, stage := .encoding,
                blobObjectId := none, createdAt := gw.now, updatedAt := gw.now,
                metadata := none, confirmations := none, rootHash := none,
                sliversByNode := none, error := none }
            finishUpload fuel gw store state fileContent options (loadEvents ++ cert.1)
        | some st =>
          if st.stage = .completed then
            let cert := isBlobCertified gw blobId
            if cert.2 then
              match StateManager.removeState store blobId with
              | .ok store' =>
                ⟨loadEvents ++ cert.1 ++ [.store (.remove blobId)], store', .ok⟩
              | .error _ =>
                -- removal failure is caught and logged at the boundary
                ⟨loadEvents ++ cert.1 ++ [.store (.remove blobId)], store, .ok⟩
            else
              finishUpload fuel gw store { st with stage := .encoding } fileContent
                options (loadEvents ++ cert.1)
          else
            finishUpload fuel gw store st fileContent options loadEvents

/-- `WalrusUploader.uploadFiles` (src/uploader.ts): sequential per-file
application. -/
def uploadFiles (fuel : Nat) (gw : Gateway) (store : StateStore)
    (filePaths : List String) (options : UploadOptions) : RunResult :=
  match filePaths with
  | [] => ⟨[], store, .ok⟩
  | fp :: rest =>
    let r := uploadFile fuel gw store fp options
    let r' := uploadFiles fuel gw r.store rest options
    ⟨r.events ++ r'.events, r'.store, r'.result⟩

end WalrusUploader

/-! Concrete environments and records used to exercise the model. -/

/-- A gateway where every call succeeds: encode yields tokens 7/8/9, the
ledger assigns object id "0xabc", three of four nodes confirm, the blob is
not yet certified, and certification succeeds. -/
def gwGood : Gateway :=
  { readFileResult := .ok [1, 2, 3, 4]
    computeMetadataBlobId := .ok "blob1"
    encodeBlob := .ok { blobId := "blob1", metadata := 7, sliversByNode := 8, rootHash := 9 }
    registerObjectId := .ok "0xabc"
    writeToNodes := .ok [some 1, some 2, some 3, none]
    verifiedBlobStatus := .ok { type := .other, initialCertifiedEpoch := none }
    readBlobOk := false
    certifyResult := .ok ()
    deleteBlobResult := .ok ()
    now := 42 }

/-- `gwGood` but the blob is already reported certified (permanent, with a
certification epoch). -/
def gwCertified : Gateway :=
  { gwGood with
      verifiedBlobStatus := .ok { type := .permanent, initialCertifiedEpoch := some 3 } }

/-- `gwGood` but the write-to-nodes call returns only null confirmations. -/
def gwZeroConf : Gateway :=
  { gwGood with writeToNodes := .ok [none, none] }

/-- `gwGood` but the erasure-encoding call throws. -/
def gwEncodeFails : Gateway :=
  { gwGood with encodeBlob := .error "encode boom" }

/-- `gwGood` but the certify transaction throws. -/
def gwCertifyFails : Gateway :=
  { gwGood with certifyResult := .error "certify boom" }

/-- `gwGood` but the verified-status lookup itself throws while the raw
blob read succeeds. -/
def gwStatusFails : Gateway :=
  { gwGood with verifiedBlobStatus := .error "status boom", readBlobOk := true }

def opts1 : UploadOptions := { epochs := some 5, deletable := none }

/-- A freshly initialised record at the encoding stage. -/
def freshRec : UploadState :=
  { blobId := "blob1", filePath := "/f", stage := .encoding,
    blobObjectId := none, createdAt := 0, updatedAt := 0, metadata := none,
    confirmations := none, rootHash := none, sliversByNode := none,
    error := none }

/-- A record persisted at the `registered` stage. -/
def regRec : UploadState :=
  { freshRec with
    stage := .registered, blobObjectId := some "0xabc",
    metadata := some 7, sliversByNode := some 8, rootHash := some "9" }

/-- A record persisted at the `uploading` stage (ready for certification). -/
def upRec : UploadState :=
  { regRec with stage := .uploading, confirmations := some [some 1, some 2] }

/-- The `registered`-stage record that a fully successful run persists. -/
def goodSavedRec : UploadState :=
  { freshRec with
    stage := .registered, blobObjectId := some "0xabc",
    metadata := some 7, sliversByNode := some 8, rootHash := some "9",
    updatedAt := 42 }

/-- The record reset performed by the stage-2 recovery path, as persisted
(`updatedAt` stamped by the save). -/
def recoveryReset (now : Nat) (s : UploadState) : UploadState :=
  { s with
    stage := .encoding, blobObjectId := none, metadata := none,
    sliversByNode := none, confirmations := none, error := none,
    updatedAt := now }

/-- Bool-level rendering of the claimed invariant "every persisted record at
stage registered / uploading / certifying / completed / failed has a blob
object id". -/
def savedObjIdClaimOk (events : List Event) : Bool :=
  List.all events (fun e =>
    match e with
    | .store (.save s) =>
      !(s.stage == Stage.registered || s.stage == Stage.uploading ||
        s.stage == Stage.certifying || s.stage == Stage.completed ||
        s.stage == Stage.failed) || s.blobObjectId.isSome
    | _ => true)

/-- Bool-level rendering of the claimed invariant "every record persisted at
stage failed has its error field set". -/
def failedSaveHasErrorOk (events : List Event) : Bool :=
  List.all events (fun e =>
    match e with
    | .store (.save s) => !(s.stage == Stage.failed) || s.error.isSome
    | _ => true)

/-- The saved-record properties the executor maintains on every path:
no record is ever persisted at stage `certifying`, and every record
persisted at stage `registered`, `uploading` or `completed` carries a blob
object id. -/
def SavedOk (r : StepResult) : Prop :=
  ∀ s, Event.store (.save s) ∈ r.events →
    s.stage ≠ Stage.certifying ∧
    ((s.stage = Stage.registered ∨ s.stage = Stage.uploading ∨
        s.stage = Stage.completed) → s.blobObjectId.isSome = true)

/-! ## Helper lemmas -/

/-- Erasing a key from the store really removes it. -/
theorem lookup_filter_ne (store : StateStore) (b : String) :
    List.lookup b (List.filter (fun p => p.1 != b) store) = none := by
  induction store with
  | nil => rfl
  | cons hd tl ih =>
    by_cases h : hd.1 = b
    · simp [List.filter_cons, h, ih]
    · have hb : (b == hd.1) = false := by
        simp only [beq_eq_false_iff_ne, ne_eq]
        exact fun hh => h hh.symm
      simp [List.filter_cons, List.lookup, h, ih, bne_iff_ne, hb]

/-- The certification-status probe performs no state-store operations. -/
theorem isBlobCertified_no_store_events (gw : Gateway) (b : String)
    (op : StoreOp) :
    Event.store op ∉ (WalrusUploader.isBlobCertified gw b).1 := by
  unfold WalrusUploader.isBlobCertified
  cases gw.verifiedBlobStatus <;> simp

/-- The certification-status probe performs no gateway mutation calls. -/
theorem isBlobCertified_no_mutations (gw : Gateway) (b : String) :
    ∀ e ∈ (WalrusUploader.isBlobCertified gw b).1, e.isMutation = false := by
  unfold WalrusUploader.isBlobCertified
  cases gw.verifiedBlobStatus <;> simp [Event.isMutation, GwCall.isMutation]

/-! ## C6 -/

/-- C6 counterexample: removing the record of a fingerprint that has no
record is not a successful no-op — `removeState` propagates the ENOENT
failure of `fs.unlink`. -/
theorem removeState_missing_record_raises :
    StateManager.removeState ([] : StateStore) "blob1" = .error "ENOENT" := rfl

/-- C6 (amended): `removeState` on a fingerprint with no record raises an
error (the unlink failure propagates); on an existing record it deletes the
record. -/
theorem removeState_spec (store : StateStore) (blobId : String) :
    (StateManager.loadState store blobId = none →
      StateManager.removeState store blobId = .error "ENOENT") ∧
    (∀ s, StateManager.loadState store blobId = some s →
      StateManager.removeState store blobId =
        .ok (List.filter (fun p => p.1 != blobId) store)) := by
  constructor
  · intro h
    unfold StateManager.removeState
    unfold StateManager.loadState at h
    simp [h]
  · intro s h
    unfold StateManager.removeState
    unfold StateManager.loadState at h
    simp [h]

/-- C6 witness: `removeState_spec` applied to the empty store. -/
theorem removeState_spec_witness :
    StateManager.removeState ([] : StateStore) "x" = .error "ENOENT" :=
  (removeState_spec [] "x").1 rfl

/-! ## C7 -/

/-- C7: invoking `uploadFile` with an absent or zero epoch count throws the
configuration error with an empty effect trace — before any file read,
state-store operation or gateway call — and leaves the store untouched. -/
theorem epochs_validation_before_io (fuel : Nat) (gw : Gateway)
    (store : StateStore) (filePath : String) (options : UploadOptions)
    (h : options.epochs = none ∨ options.epochs = some 0) :
    WalrusUploader.uploadFile fuel gw store filePath options =
      ⟨[], store, .err "Should specify the number for `epochs`"⟩ := by
  rcases h with h | h <;> simp [WalrusUploader.uploadFile, h]

/-- C7 witness: the guard fires for an absent epoch count. -/
theorem epochs_validation_before_io_witness :
    WalrusUploader.uploadFile 5 gwGood [] "/f"
        { epochs := none, deletable := none } =
      ⟨[], [], .err "Should specify the number for `epochs`"⟩ :=
  epochs_validation_before_io 5 gwGood [] "/f"
    { epochs := none, deletable := none } (Or.inl rfl)

/-! ## C8 -/

/-- C8: the resume listing (modelled from the spec, its implementation being
absent from the provided sources) scans all stored records and returns
exactly the source paths of records in non-terminal stages — `completed`
and `failed` records are excluded. -/
theorem listPendingUploads_characterization (store : StateStore) (p : String) :
    p ∈ StateManager.listPendingUploads store ↔
      ∃ r, r ∈ StateManager.listAll store ∧ r.filePath = p ∧
        r.stage ≠ Stage.completed ∧ r.stage ≠ Stage.failed := by
  unfold StateManager.listPendingUploads
  simp only [List.mem_map, List.mem_filter]
  constructor
  · rintro ⟨r, ⟨hr, hcond⟩, hp⟩
    refine ⟨r, hr, hp, ?_, ?_⟩ <;>
      · intro hc
        simp [hc] at hcond
  · rintro ⟨r, hr, hp, hc, hf⟩
    exact ⟨r, ⟨hr, by simp [hc, hf]⟩, hp⟩

/-! ## C10 -/

/-- C10: `isBlobCertified` returns a boolean on every gateway outcome; it is
true exactly when the verified-status lookup reports a permanent or
deletable blob with a certification epoch, or the lookup itself faults and
the raw blob read succeeds.  In particular, when the status lookup faults
the answer equals the raw-read success flag, so an existing-but-uncertified
blob is reported certified whenever its status lookup fails. -/
theorem isBlobCertified_total_characterization (gw : Gateway) (blobId : String) :
    ((WalrusUploader.isBlobCertified gw blobId).2 = true ↔
      (∃ st, gw.verifiedBlobStatus = .ok st ∧
        (st.type = .permanent ∨ st.type = .deletable) ∧
        st.initialCertifiedEpoch.isSome = true) ∨
      ((∃ e, gw.verifiedBlobStatus = .error e) ∧ gw.readBlobOk = true)) ∧
    (∀ e, gw.verifiedBlobStatus = .error e →
      (WalrusUploader.isBlobCertified gw blobId).2 = gw.readBlobOk) := by
  unfold WalrusUploader.isBlobCertified
  cases h : gw.verifiedBlobStatus with
  | ok st =>
    cases ht : st.type <;> simp [ht]
  | error e => simp

/-- C10 witness: with a faulting status lookup and a succeeding raw read,
the probe reports certified. -/
theorem isBlobCertified_total_characterization_witness :
    (WalrusUploader.isBlobCertified gwStatusFails "blob1").2 =
      gwStatusFails.readBlobOk :=
  (isBlobCertified_total_characterization gwStatusFails "blob1").2
    "status boom" rfl

/-! ## Saved-record invariants (shared by C4 and C9) -/

theorem stageCertifying_savedOk (gw : Gateway) (store : StateStore)
    (state : UploadState) (options : UploadOptions) :
    SavedOk (WalrusUploader.stageCertifying gw store state options) := by
  intro s hs
  unfold WalrusUploader.stageCertifying at hs
  rcases hconf : state.confirmations with _ | confs <;>
    rcases hobj : state.blobObjectId with _ | objId <;>
    simp only [hconf, hobj] at hs
  · simp at hs
  · simp at hs
  · simp at hs
  · split at hs
    · split at hs
      · rcases List.mem_append.mp hs with h | h
        · exact absurd h (isBlobCertified_no_store_events gw state.blobId _)
        · simp at h
      · rcases List.mem_append.mp hs with h | h
        · exact absurd h (isBlobCertified_no_store_events gw state.blobId _)
        · simp [StateManager.saveState] at h
          subst h
          simp
    · split at hs
      · split at hs
        · rcases List.mem_append.mp hs with h | h
          · exact absurd h (isBlobCertified_no_store_events gw state.blobId _)
          · simp [StateManager.saveState] at h
            subst h
            simp
        · rcases List.mem_append.mp hs with h | h
          · exact absurd h (isBlobCertified_no_store_events gw state.blobId _)
          · simp [StateManager.saveState] at h
            rcases h with h | h <;> subst h <;> simp
      · rcases List.mem_append.mp hs with h | h
        · exact absurd h (isBlobCertified_no_store_events gw state.blobId _)
        · simp [StateManager.saveState] at h
          subst h
          simp

theorem failCatch_savedOk (gw : Gateway) (inner : StepResult)
    (hinner : SavedOk inner) :
    SavedOk (WalrusUploader.failCatch gw inner) := by
  intro s hs
  unfold WalrusUploader.failCatch at hs
  split at hs
  · rcases List.mem_append.mp hs with h | h
    · exact hinner s h
    · simp [StateManager.saveState] at h
      subst h
      simp
  · exact hinner s hs

theorem savedOk_mutual (fuel : Nat) :
    (∀ gw store state fc o,
      SavedOk (WalrusUploader.executeStage fuel gw store state fc o)) ∧
    (∀ gw store state fc o,
      SavedOk (WalrusUploader.stageEncoding fuel gw store state fc o)) ∧
    (∀ gw store state fc o,
      SavedOk (WalrusUploader.stageUploading fuel gw store state fc o)) ∧
    (∀ gw store state fc o,
      SavedOk (WalrusUploader.stage2Recovery fuel gw store state fc o)) := by
  induction fuel with
  | zero =>
    refine ⟨?_, ?_, ?_, ?_⟩ <;>
      · intro gw store state fc o s hs
        simp [WalrusUploader.executeStage, WalrusUploader.stageEncoding,
          WalrusUploader.stageUploading, WalrusUploader.stage2Recovery] at hs
  | succ fuel ih =>
    obtain ⟨ihE, ihEnc, ihUp, ihRec⟩ := ih
    refine ⟨?_, ?_, ?_, ?_⟩
    · -- executeStage
      intro gw store state fc o
      show SavedOk (WalrusUploader.executeStage (fuel + 1) gw store state fc o)
      unfold WalrusUploader.executeStage
      apply failCatch_savedOk
      cases hstage : state.stage <;> simp only
      · exact ihEnc gw store state fc o
      · exact ihUp gw store state fc o
      · exact stageCertifying_savedOk gw store state o
      · exact stageCertifying_savedOk gw store state o
      · intro s hs; simp at hs
      · exact ihEnc gw store state fc o
    · -- stageEncoding
      intro gw store state fc o s hs
      unfold WalrusUploader.stageEncoding at hs
      split at hs
      · simp at hs
      · split at hs
        · simp at hs
        · rcases List.mem_append.mp hs with h | h
          · simp [StateManager.saveState] at h
            subst h
            simp
          · exact ihUp gw _ _ fc o s h
    · -- stageUploading
      intro gw store state fc o s hs
      unfold WalrusUploader.stageUploading at hs
      rcases hmd : state.metadata with _ | md <;>
        rcases hsl : state.sliversByNode with _ | sl <;>
        rcases hobj : state.blobObjectId with _ | objId <;>
        simp only [hmd, hsl, hobj] at hs
      case some.some.some =>
        split at hs
        · split at hs
          · -- zero confirmations: recovery
            rcases List.mem_cons.mp hs with h | h
            · simp at h
            · exact ihRec gw store state fc o s h
          · split at hs
            · -- certifying threw: recovery after the uploading save
              rcases List.mem_cons.mp hs with h | h
              · simp at h
              · rcases List.mem_cons.mp h with h2 | h2
                · simp [StateManager.saveState] at h2
                  subst h2
                  simp
                · rcases List.mem_append.mp h2 with h3 | h3
                  · exact stageCertifying_savedOk gw _ _ o s h3
                  · exact ihRec gw _ _ fc o s h3
            · rcases List.mem_cons.mp hs with h | h
              · simp at h
              · rcases List.mem_cons.mp h with h2 | h2
                · simp [StateManager.saveState] at h2
                  subst h2
                  simp
                · exact stageCertifying_savedOk gw _ _ o s h2
        · -- write threw: recovery
          rcases List.mem_cons.mp hs with h | h
          · simp at h
          · exact ihRec gw store state fc o s h
      all_goals simp at hs
    · -- stage2Recovery
      intro gw store state fc o s hs
      unfold WalrusUploader.stage2Recovery at hs
      rcases List.mem_append.mp hs with h | h
      · rcases List.mem_append.mp h with h2 | h2
        · rcases hobj : state.blobObjectId with _ | objId <;>
            simp only [hobj] at h2 <;> simp at h2
        · simp [StateManager.saveState] at h2
          subst h2
          simp
      · exact ihE gw _ _ fc o s h

/-! ## C2 -/

/-- C2: entering the certifying stage with confirmations and the blob
object id present, when the remote status probe reports the blob certified
the certify transaction is never issued, the local record is deleted from
the store, and the stage returns normally. -/
theorem certifying_short_circuit (gw : Gateway) (store : StateStore)
    (state : UploadState) (options : UploadOptions)
    (confs : List (Option Nat)) (objId : String)
    (hconf : state.confirmations = some confs)
    (hobj : state.blobObjectId = some objId)
    (hcert : (WalrusUploader.isBlobCertified gw state.blobId).2 = true)
    (hin : (StateManager.loadState store state.blobId).isSome = true) :
    (∀ b o d, Event.gw (.certifyTx b o d) ∉
        (WalrusUploader.stageCertifying gw store state options).events) ∧
    StateManager.loadState
        (WalrusUploader.stageCertifying gw store state options).store
        state.blobId = none ∧
    (WalrusUploader.stageCertifying gw store state options).result = .ok := by
  obtain ⟨s', hs'⟩ := Option.isSome_iff_exists.mp hin
  have hrem : StateManager.removeState store state.blobId =
      .ok (List.filter (fun p => p.1 != state.blobId) store) :=
    (removeState_spec store state.blobId).2 s' hs'
  simp only [WalrusUploader.stageCertifying, hconf, hobj, hcert, if_true, hrem]
  refine ⟨?_, ?_, trivial⟩
  · intro b o d hmem
    rcases List.mem_append.mp hmem with h | h
    · have := isBlobCertified_no_mutations gw state.blobId _ h
      simp [Event.isMutation, GwCall.isMutation] at this
    · simp at h
  · exact lookup_filter_ne store state.blobId

/-- C2 witness: a concrete uploading-stage record, an in-store copy, and an
already-certified remote status. -/
theorem certifying_short_circuit_witness :
    (∀ b o d, Event.gw (.certifyTx b o d) ∉
        (WalrusUploader.stageCertifying gwCertified [("blob1", upRec)] upRec
          opts1).events) ∧
    StateManager.loadState
        (WalrusUploader.stageCertifying gwCertified [("blob1", upRec)] upRec
          opts1).store "blob1" = none ∧
    (WalrusUploader.stageCertifying gwCertified [("blob1", upRec)] upRec
        opts1).result = .ok :=
  certifying_short_circuit gwCertified [("blob1", upRec)] upRec opts1
    [some 1, some 2] "0xabc" rfl rfl rfl rfl

/-! ## C3 -/

/-- C3: a fresh upload (no local record for the fingerprint) whose remote
status is already certified performs no gateway mutation call (no encode,
register, write or certify), persists no record, leaves the store
untouched, and returns normally. -/
theorem skip_on_already_certified (fuel : Nat) (gw : Gateway)
    (store : StateStore) (filePath : String) (options : UploadOptions)
    (n : Nat) (fileContent : List Nat) (blobId : String)
    (he : options.epochs = some (n + 1))
    (hf : gw.readFileResult = .ok fileContent)
    (hb : gw.computeMetadataBlobId = .ok blobId)
    (hload : StateManager.loadState store blobId = none)
    (hcert : (WalrusUploader.isBlobCertified gw blobId).2 = true) :
    (∀ e ∈ (WalrusUploader.uploadFile fuel gw store filePath options).events,
        e.isMutation = false) ∧
    (∀ s, Event.store (.save s) ∉
        (WalrusUploader.uploadFile fuel gw store filePath options).events) ∧
    (WalrusUploader.uploadFile fuel gw store filePath options).store = store ∧
    (WalrusUploader.uploadFile fuel gw store filePath options).result = .ok := by
  simp only [WalrusUploader.uploadFile, he, hf, hb, hload, hcert, if_true]
  refine ⟨?_, ?_, trivial, trivial⟩
  · intro e hmem
    rcases List.mem_append.mp hmem with h | h
    · simp only [List.mem_cons, List.not_mem_nil, or_false] at h
      rcases h with rfl | rfl | rfl <;> rfl
    · exact isBlobCertified_no_mutations gw blobId e h
  · intro s hmem
    rcases List.mem_append.mp hmem with h | h
    · simp at h
    · exact isBlobCertified_no_store_events gw blobId _ h

/-- C3 witness: fresh store, certified remote status. -/
theorem skip_on_already_certified_witness :
    (∀ e ∈ (WalrusUploader.uploadFile 5 gwCertified [] "/f" opts1).events,
        e.isMutation = false) ∧
    (∀ s, Event.store (.save s) ∉
        (WalrusUploader.uploadFile 5 gwCertified [] "/f" opts1).events) ∧
    (WalrusUploader.uploadFile 5 gwCertified [] "/f" opts1).store = [] ∧
    (WalrusUploader.uploadFile 5 gwCertified [] "/f" opts1).result = .ok :=
  skip_on_already_certified 5 gwCertified [] "/f" opts1 4 [1, 2, 3, 4] "blob1"
    rfl rfl rfl rfl rfl

/-! ## C1 -/

/-- C1: a record at stage `registered` whose write-to-nodes call returns
zero non-null confirmations triggers the full stage-2 reset: the gateway's
delete-object call is issued with the previously registered object id, the
record then persisted is at stage `encoding` with `blobObjectId`,
`metadata`, `sliversByNode`, `confirmations` and `error` all cleared, and
execution restarts from `executeStage` on the reset record with the same
file bytes. -/
theorem stage2_zero_confirmations_full_reset (fuel : Nat) (gw : Gateway)
    (store : StateStore) (state : UploadState) (fileContent : List Nat)
    (options : UploadOptions) (m sl : Nat) (objId : String)
    (confs : List (Option Nat))
    (_hstage : state.stage = Stage.registered)
    (hm : state.metadata = some m) (hsl : state.sliversByNode = some sl)
    (hobj : state.blobObjectId = some objId)
    (hw : gw.writeToNodes = .ok confs)
    (hzero : (List.filter (fun c => c != none) confs).length = 0) :
    (recoveryReset gw.now state).stage = Stage.encoding ∧
    (recoveryReset gw.now state).blobObjectId = none ∧
    (recoveryReset gw.now state).metadata = none ∧
    (recoveryReset gw.now state).sliversByNode = none ∧
    (recoveryReset gw.now state).confirmations = none ∧
    (recoveryReset gw.now state).error = none ∧
    WalrusUploader.stageUploading (fuel + 2) gw store state fileContent options =
      ⟨Event.gw (.write state.blobId objId (options.deletable.getD false)) ::
          Event.gw (.deleteObject objId) ::
          Event.store (.save (recoveryReset gw.now state)) ::
          (WalrusUploader.executeStage fuel gw
            ((state.blobId, recoveryReset gw.now state) ::
              List.filter (fun p => p.1 != state.blobId) store)
            (recoveryReset gw.now state) fileContent options).events,
        (WalrusUploader.executeStage fuel gw
          ((state.blobId, recoveryReset gw.now state) ::
            List.filter (fun p => p.1 != state.blobId) store)
          (recoveryReset gw.now state) fileContent options).store,
        (WalrusUploader.executeStage fuel gw
          ((state.blobId, recoveryReset gw.now state) ::
            List.filter (fun p => p.1 != state.blobId) store)
          (recoveryReset gw.now state) fileContent options).state,
        (WalrusUploader.executeStage fuel gw
          ((state.blobId, recoveryReset gw.now state) ::
            List.filter (fun p => p.1 != state.blobId) store)
          (recoveryReset gw.now state) fileContent options).result⟩ := by
  refine ⟨rfl, rfl, rfl, rfl, rfl, rfl, ?_⟩
  simp only [WalrusUploader.stageUploading, hm, hsl, hobj, hw, hzero,
    WalrusUploader.stage2Recovery, StateManager.saveState, recoveryReset]
  rfl

/-- C1 witness: a concrete registered record and an all-null confirmation
sequence. -/
theorem stage2_zero_confirmations_full_reset_witness :
    (recoveryReset 42 regRec).stage = Stage.encoding ∧
    (recoveryReset 42 regRec).blobObjectId = none ∧
    (recoveryReset 42 regRec).metadata = none ∧
    (recoveryReset 42 regRec).sliversByNode = none ∧
    (recoveryReset 42 regRec).confirmations = none ∧
    (recoveryReset 42 regRec).error = none ∧
    WalrusUploader.stageUploading 2 gwZeroConf [] regRec [1] opts1 =
      ⟨Event.gw (.write "blob1" "0xabc" false) ::
          Event.gw (.deleteObject "0xabc") ::
          Event.store (.save (recoveryReset 42 regRec)) ::
          (WalrusUploader.executeStage 0 gwZeroConf
            [("blob1", recoveryReset 42 regRec)]
            (recoveryReset 42 regRec) [1] opts1).events,
        (WalrusUploader.executeStage 0 gwZeroConf
          [("blob1", recoveryReset 42 regRec)]
          (recoveryReset 42 regRec) [1] opts1).store,
        (WalrusUploader.executeStage 0 gwZeroConf
          [("blob1", recoveryReset 42 regRec)]
          (recoveryReset 42 regRec) [1] opts1).state,
        (WalrusUploader.executeStage 0 gwZeroConf
          [("blob1", recoveryReset 42 regRec)]
          (recoveryReset 42 regRec) [1] opts1).result⟩ := by
  exact stage2_zero_confirmations_full_reset 0 gwZeroConf [] regRec [1] opts1
    7 8 "0xabc" [none, none] rfl rfl rfl rfl rfl rfl

/-! ## C4 -/

/-- C4 counterexample: when the encode call throws on a fresh record, the
executor persists a record at stage `failed` whose `blobObjectId` is
absent, refuting the claimed invariant for the stage set
{registered, uploading, certifying, completed, failed}. -/
theorem failed_record_without_objectId :
    savedObjIdClaimOk
      (WalrusUploader.executeStage 2 gwEncodeFails [] freshRec [1] opts1).events
      = false := by decide

/-- C4 (amended): every record the executor persists at stage `registered`,
`uploading` or `completed` has `blobObjectId` present; a record persisted
at stage `failed` may lack it (e.g. when stage 1 throws before
registration). -/
theorem saved_records_have_objectId (fuel : Nat) (gw : Gateway)
    (store : StateStore) (state : UploadState) (fileContent : List Nat)
    (options : UploadOptions) (s : UploadState)
    (hmem : Event.store (.save s) ∈
      (WalrusUploader.executeStage fuel gw store state fileContent options).events)
    (hstage : s.stage = Stage.registered ∨ s.stage = Stage.uploading ∨
      s.stage = Stage.completed) :
    s.blobObjectId.isSome = true :=
  ((savedOk_mutual fuel).1 gw store state fileContent options s hmem).2 hstage

/-- C4 witness: the `registered` record persisted by an all-successful run
carries the registered object id. -/
theorem saved_records_have_objectId_witness :
    goodSavedRec.blobObjectId.isSome = true :=
  saved_records_have_objectId 10 gwGood [] freshRec [1, 2, 3, 4] opts1
    goodSavedRec (by decide) (Or.inl (by decide))

/-! ## C5 -/

/-- C5 counterexample: a failure of the certify transaction makes
`stageCertifying` persist the record at stage `failed` with the error field
left unset — the error message is not recorded. -/
theorem certify_failure_error_not_recorded :
    failedSaveHasErrorOk
      (WalrusUploader.stageCertifying gwCertifyFails [("blob1", upRec)] upRec
        opts1).events = false := by decide

/-- C5 (amended): a record persisted at stage `failed` by the executor's
top-level error handler carries the failure's message in `error`; a failure
inside the certifying stage, however, persists `stage: failed` with the
`error` field left unchanged (the certify error message is not recorded). -/
theorem failed_error_message_policy :
    (∀ (gw : Gateway) (store : StateStore) (state : UploadState)
        (options : UploadOptions) (confs : List (Option Nat)) (objId : String)
        (e : String),
      state.confirmations = some confs → state.blobObjectId = some objId →
      (WalrusUploader.isBlobCertified gw state.blobId).2 = false →
      gw.certifyResult = .error e →
      WalrusUploader.stageCertifying gw store state options =
        ⟨(WalrusUploader.isBlobCertified gw state.blobId).1 ++
            [.gw (.certifyTx state.blobId objId (options.deletable.getD false)),
              .store (.save (StateManager.saveState gw.now store
                { state with stage := .failed }).2)],
          (StateManager.saveState gw.now store { state with stage := .failed }).1,
          (StateManager.saveState gw.now store { state with stage := .failed }).2,
          .ok⟩ ∧
      (StateManager.saveState gw.now store
        { state with stage := .failed }).2.error = state.error ∧
      (StateManager.saveState gw.now store
        { state with stage := .failed }).2.stage = Stage.failed) ∧
    (∀ (fuel : Nat) (gw : Gateway) (store : StateStore) (state : UploadState)
        (fileContent : List Nat) (options : UploadOptions) (e : String),
      state.stage = Stage.encoding → gw.encodeBlob = .error e →
      WalrusUploader.executeStage (fuel + 2) gw store state fileContent options =
        ⟨[.gw .encode,
            .store (.save (StateManager.saveState gw.now store
              { state with
                stage := .failed, error := some e, updatedAt := gw.now }).2)],
          (StateManager.saveState gw.now store
            { state with
              stage := .failed, error := some e, updatedAt := gw.now }).1,
          (StateManager.saveState gw.now store
            { state with
              stage := .failed, error := some e, updatedAt := gw.now }).2,
          .err e⟩) := by
  constructor
  · intro gw store state options confs objId e hconf hobj hcert herr
    refine ⟨?_, rfl, rfl⟩
    simp only [WalrusUploader.stageCertifying, hconf, hobj, hcert, herr]
    rfl
  · intro fuel gw store state fileContent options e hstage herr
    simp only [WalrusUploader.executeStage, WalrusUploader.stageEncoding,
      hstage, herr, WalrusUploader.failCatch]
    rfl

/-- C5 witness: both halves applied at concrete inputs — the certifying
failure leaves the error field at its previous value, and the stage-1
failure records the message through the top-level handler. -/
theorem failed_error_message_policy_witness :
    (StateManager.saveState gwCertifyFails.now []
      { upRec with stage := Stage.failed }).2.error = upRec.error ∧
    (WalrusUploader.executeStage 2 gwEncodeFails [] freshRec [1] opts1).result =
      .err "encode boom" := by
  constructor
  · exact (failed_error_message_policy.1 gwCertifyFails [] upRec opts1
      [some 1, some 2] "0xabc" "certify boom" rfl rfl rfl rfl).2.1
  · rw [failed_error_message_policy.2 0 gwEncodeFails [] freshRec [1] opts1
      "encode boom" rfl rfl]

/-! ## C9 -/

/-- `stageCertifying` reads the record stage nowhere: two input records
differing only in `stage` produce the same events, store and result, and
final states that agree after the stage / error / updatedAt overwrite of
the executor catch. -/
theorem stageCertifying_stage_agnostic (gw : Gateway) (store : StateStore)
    (rec0 : UploadState) (options : UploadOptions) (st1 st2 : Stage) :
    (WalrusUploader.stageCertifying gw store { rec0 with stage := st1 } options).events =
      (WalrusUploader.stageCertifying gw store { rec0 with stage := st2 } options).events ∧
    (WalrusUploader.stageCertifying gw store { rec0 with stage := st1 } options).store =
      (WalrusUploader.stageCertifying gw store { rec0 with stage := st2 } options).store ∧
    (WalrusUploader.stageCertifying gw store { rec0 with stage := st1 } options).result =
      (WalrusUploader.stageCertifying gw store { rec0 with stage := st2 } options).result ∧
    ∀ m u, ({ (WalrusUploader.stageCertifying gw store { rec0 with stage := st1 } options).state with
                stage := Stage.failed, error := m, updatedAt := u } : UploadState) =
           { (WalrusUploader.stageCertifying gw store { rec0 with stage := st2 } options).state with
                stage := Stage.failed, error := m, updatedAt := u } := by
  obtain ⟨bid, fp, st0, bobj, ca, ua, md, cf, rh, sl, er⟩ := rec0
  rcases cf with _ | confs <;> rcases bobj with _ | objId <;>
    simp [WalrusUploader.stageCertifying, StateManager.saveState]
  split <;> split <;> simp [StateManager.saveState]

/-- `failCatch` congruence along the component equalities of
`stageCertifying_stage_agnostic`. -/
theorem failCatch_components (gw : Gateway) (i1 i2 : StepResult)
    (he : i1.events = i2.events) (hst : i1.store = i2.store)
    (hr : i1.result = i2.result)
    (hstate : ∀ m u, ({ i1.state with
        stage := Stage.failed, error := m, updatedAt := u } : UploadState) =
      { i2.state with
        stage := Stage.failed, error := m, updatedAt := u }) :
    (WalrusUploader.failCatch gw i1).events = (WalrusUploader.failCatch gw i2).events ∧
    (WalrusUploader.failCatch gw i1).store = (WalrusUploader.failCatch gw i2).store ∧
    (WalrusUploader.failCatch gw i1).result = (WalrusUploader.failCatch gw i2).result := by
  unfold WalrusUploader.failCatch
  rw [← hr]
  rcases hr1 : i1.result with _ | msg | _
  · simp [he, hst, hr]
  · have h0 := hstate none 0
    simp only [UploadState.mk.injEq, and_true, true_and] at h0
    obtain ⟨hb, hf, hob, hca, hmd, hcf, hrh, hsl⟩ := h0
    simp [he, hst, StateManager.saveState, hstate (some msg) gw.now, hb, hf,
      hob, hca, hmd, hcf, hrh, hsl]
  · simp [he, hst, hr]

/-- C9: the executor never persists a record at stage `certifying`, and it
dispatches persisted stages `uploading` and `certifying` identically into
the certification step (same events, same store, same result). -/
theorem persisted_never_certifying_dispatch (fuel : Nat) (gw : Gateway)
    (store : StateStore) (state rec0 : UploadState) (fileContent : List Nat)
    (options : UploadOptions) :
    (∀ s, Event.store (.save s) ∈
        (WalrusUploader.executeStage fuel gw store state fileContent options).events →
      s.stage ≠ Stage.certifying) ∧
    ((WalrusUploader.executeStage fuel gw store { rec0 with stage := .uploading }
        fileContent options).events =
      (WalrusUploader.executeStage fuel gw store { rec0 with stage := .certifying }
        fileContent options).events ∧
    (WalrusUploader.executeStage fuel gw store { rec0 with stage := .uploading }
        fileContent options).store =
      (WalrusUploader.executeStage fuel gw store { rec0 with stage := .certifying }
        fileContent options).store ∧
    (WalrusUploader.executeStage fuel gw store { rec0 with stage := .uploading }
        fileContent options).result =
      (WalrusUploader.executeStage fuel gw store { rec0 with stage := .certifying }
        fileContent options).result) := by
  constructor
  · intro s hs
    exact ((savedOk_mutual fuel).1 gw store state fileContent options s hs).1
  · cases fuel with
    | zero => exact ⟨rfl, rfl, rfl⟩
    | succ fuel =>
      have hag := stageCertifying_stage_agnostic gw store rec0 options
        .uploading .certifying
      simp only [WalrusUploader.executeStage]
      exact failCatch_components gw _ _ hag.1 hag.2.1 hag.2.2.1 hag.2.2.2

theorem persisted_never_certifying_dispatch_witness :
    goodSavedRec.stage ≠ Stage.certifying :=
  (persisted_never_certifying_dispatch 10 gwGood [] freshRec freshRec
    [1, 2, 3, 4] opts1).1 goodSavedRec (by decide)

end WalrusSync
